import Mathlib

/-!
Verification of the smart natural-language query parser and the response
formatters of the monarchmoney-ts-mcp server.

Sources embedded here:
  - tests/smart-query-parser.test.ts : the complete reference implementation
    of parseNaturalLanguageQuery (quantity, merchant, time, amount, default
    limit stages).
  - src/index.ts : the server copy of parseNaturalLanguageQuery (brand-list
    merchant matching, this-month ending at today, combined over/under
    amount rule, sort hints, no default limit) and its formatTransactions.
  - src/createServer.ts : RESPONSE_SIZE_ESTIMATES, calculateOptimalVerbosity
    and the OptimizedResponseFormatter class.

Modelling conventions, stated once:
  - JavaScript strings are Lean strings (lists of code points); toLowerCase
    is modelled on the ASCII range by Char.toLower.
  - JavaScript numbers are exact rationals; a possibly-NaN value is an
    Option of a rational, with none playing NaN.  Number.toLocaleString is
    modelled for the default en-US locale: comma thousands grouping and at
    most three fraction digits, rounding half away from zero.
  - Dates: the ambient clock is injected as a Today record; the runtime
    time zone is taken to be UTC, so Date#toISOString().split on the T
    gives the calendar date, and toLocaleDateString renders M/D/YYYY for a
    date string of the form YYYY-MM-DD (optionally followed by a T time
    part), and the literal Invalid Date text otherwise.
  - The regular expressions of the source are modelled by hand-rolled
    scanners with the exact leftmost-match, alternation-order, greedy and
    lazy semantics of the originals; each scanner names the regex it
    embeds.
-/

/-! ## Character classes and basic scanning primitives -/

/-- JS regex white space, restricted to the ASCII range. -/
def wsChar (c : Char) : Bool :=
  c = ' ' ∨ c = '\t' ∨ c = '\n' ∨ c = '\r' ∨ c = '\x0b' ∨ c = '\x0c'

/-- JS regex word character (for word boundaries): letters, digits, underscore. -/
def wordChar (c : Char) : Bool :=
  (c ≥ 'a' ∧ c ≤ 'z') ∨ (c ≥ 'A' ∧ c ≤ 'Z') ∨ (c ≥ '0' ∧ c ≤ '9') ∨ c = '_'

/-- ASCII letter. -/
def asciiAlpha (c : Char) : Bool :=
  (c ≥ 'a' ∧ c ≤ 'z') ∨ (c ≥ 'A' ∧ c ≤ 'Z')

/-- ASCII digit. -/
def isDig (c : Char) : Bool := c ≥ '0' ∧ c ≤ '9'

/-- The merchant-capture character class of the source regexes:
letters, digits, white space and ampersand. -/
def grpChar (c : Char) : Bool := asciiAlpha c ∨ isDig c ∨ wsChar c ∨ c = '&'

/-- Lowercased code points of a string (model of String#toLowerCase). -/
def lowerData (q : String) : List Char := q.data.map Char.toLower

/-- Drop an exact literal from the front of the input, returning the rest. -/
def dropLit : List Char → List Char → Option (List Char)
  | [], l => some l
  | _ :: _, [] => none
  | p :: ps, c :: cs => if p = c then dropLit ps cs else none

/-- First literal of the list that is a prefix of the input (alternation of
plain literals, tried in order). -/
def dropAnyLit (lits : List (List Char)) (l : List Char) : Option (List Char) :=
  lits.findSome? (fun lit => dropLit lit l)

/-- One-or-more white space characters, greedily. -/
def wsPlus (l : List Char) : Option (List Char) :=
  match l with
  | [] => none
  | c :: rest => if wsChar c then some (rest.dropWhile wsChar) else none

/-- One-or-more digits, greedily; returns the digits and the rest. -/
def digPlus (l : List Char) : Option (List Char × List Char) :=
  match l with
  | [] => none
  | c :: _ => if isDig c then some (l.takeWhile isDig, l.dropWhile isDig) else none

/-- Decimal value of a digit list (model of parseInt on a digit capture). -/
def digitsToNat (l : List Char) : Nat :=
  l.foldl (fun a c => 10 * a + (c.toNat - 48)) 0

/-- Substring containment (model of String#includes). -/
def containsL : List Char → List Char → Bool
  | _, [] => true
  | [], _ :: _ => false
  | c :: rest, pat => (dropLit pat (c :: rest)).isSome ∨ containsL rest pat

/-- JS String#trim on a code point list. -/
def trimChars (l : List Char) : List Char :=
  ((l.dropWhile wsChar).reverse.dropWhile wsChar).reverse

/-! ## Quantity extraction

Model of the source regex
(?:last|recent|top|first)\s+(\d+)|(\d+)\s+(?:last|recent|top|largest|biggest|smallest)
with leftmost match and in-order alternation. -/

/-- First alternative of the quantity regex at the current position. -/
def quantA (l : List Char) : Option Nat :=
  match dropAnyLit ["last".data, "recent".data, "top".data, "first".data] l with
  | none => none
  | some r =>
    match wsPlus r with
    | none => none
    | some r2 =>
      match digPlus r2 with
      | none => none
      | some (ds, _) => some (digitsToNat ds)

/-- Second alternative of the quantity regex at the current position. -/
def quantB (l : List Char) : Option Nat :=
  match digPlus l with
  | none => none
  | some (ds, r) =>
    match wsPlus r with
    | none => none
    | some r2 =>
      if (dropAnyLit ["last".data, "recent".data, "top".data, "largest".data,
            "biggest".data, "smallest".data] r2).isSome
      then some (digitsToNat ds) else none

/-- Leftmost match of the quantity regex over the whole query. -/
def findQuantity : List Char → Option Nat
  | [] => none
  | c :: rest =>
    match quantA (c :: rest) with
    | some n => some n
    | none =>
      match quantB (c :: rest) with
      | some n => some n
      | none => findQuantity rest

/-! ## Merchant extraction (reference implementation of the tests file)

Four patterns tried in order; the first match whose trimmed capture passes
the common-word, pure-number and length filters wins. -/

/-- The fixed brand alternation of the first merchant pattern. -/
def brands : List (List Char) :=
  ["amazon".data, "starbucks".data, "walmart".data, "target".data, "costco".data,
   "netflix".data, "uber".data, "airbnb".data, "apple".data, "google".data,
   "microsoft".data, "tesla".data]

/-- Brand match at the current position: the brand must be a prefix and both
sides must be word boundaries; prevWord says whether the preceding character
is a word character. -/
def brandAt (prevWord : Bool) (l : List Char) : Option (List Char) :=
  if prevWord then none
  else
    brands.findSome? fun b =>
      match dropLit b l with
      | none => none
      | some rest =>
        match rest with
        | [] => some b
        | d :: _ => if wordChar d then none else some b

/-- Leftmost whole-word brand occurrence (model of
\b(amazon|starbucks|walmart|target|costco|netflix|uber|airbnb|apple|google|microsoft|tesla)\b). -/
def findBrandAux : Bool → List Char → Option (List Char)
  | _, [] => none
  | prev, c :: rest =>
    match brandAt prev (c :: rest) with
    | some b => some b
    | none => findBrandAux (wordChar c) rest

/-- Brand pattern over the whole query. -/
def findBrand (l : List Char) : Option (List Char) := findBrandAux false l

/-- Lazy tail of a capture group: the minimal nonempty run of group
characters after which the next character is white space or the end of the
input (model of the lazy quantifier in ([a-zA-Z][a-zA-Z0-9\s&]+?)(?:\s|$)). -/
def lazyTailWs : List Char → Option (List Char)
  | [] => none
  | d :: rest =>
    if grpChar d then
      match rest with
      | [] => some [d]
      | e :: _ =>
        if wsChar e then some [d]
        else
          match lazyTailWs rest with
          | some t => some (d :: t)
          | none => none
    else none

/-- The capture group ([a-zA-Z][a-zA-Z0-9\s&]+?) followed by (?:\s|$). -/
def groupLazyWs (l : List Char) : Option (List Char) :=
  match l with
  | [] => none
  | c :: rest =>
    if asciiAlpha c then (lazyTailWs rest).map (fun t => c :: t) else none

/-- The from/at pattern at the current position
(model of (?:from\s+|at\s+|@\s*)([a-zA-Z][a-zA-Z0-9\s&]+?)(?:\s|$)). -/
def fromAtAt (l : List Char) : Option (List Char) :=
  match dropLit "from".data l with
  | some r => (wsPlus r).bind groupLazyWs
  | none =>
    match dropLit "at".data l with
    | some r => (wsPlus r).bind groupLazyWs
    | none =>
      match dropLit "@".data l with
      | some r => groupLazyWs (r.dropWhile wsChar)
      | none => none

/-- Leftmost match of the from/at pattern. -/
def findFromAt : List Char → Option (List Char)
  | [] => none
  | c :: rest =>
    match fromAtAt (c :: rest) with
    | some g => some g
    | none => findFromAt rest

/-- Does \s+(?:charges?|payments?|transactions?) match at this position?  It
suffices that one of the three stems follows the white space, since the
optional plural s imposes no further requirement. -/
def kwAfter (l : List Char) : Bool :=
  match wsPlus l with
  | none => false
  | some r =>
    (dropAnyLit ["charge".data, "payment".data, "transaction".data] r).isSome

/-- Lazy tail of the capture group of ([a-zA-Z][a-zA-Z0-9\s&]+?)\s+(?:charges?|payments?|transactions?):
the minimal nonempty run of group characters after which the keyword part
matches. -/
def lazyTailKw : List Char → Option (List Char)
  | [] => none
  | d :: rest =>
    if grpChar d then
      if kwAfter rest then some [d]
      else
        match lazyTailKw rest with
        | some t => some (d :: t)
        | none => none
    else none

/-- The charges/payments/transactions suffix pattern at the current position. -/
def chargesAt (l : List Char) : Option (List Char) :=
  match l with
  | [] => none
  | c :: rest =>
    if asciiAlpha c then (lazyTailKw rest).map (fun t => c :: t) else none

/-- Leftmost match of the charges/payments/transactions suffix pattern. -/
def findCharges : List Char → Option (List Char)
  | [] => none
  | c :: rest =>
    match chargesAt (c :: rest) with
    | some g => some g
    | none => findCharges rest

/-- The spent-at pattern at the current position
(model of (?:spent\s+(?:at|on)\s+)([a-zA-Z][a-zA-Z0-9\s&]+), greedy capture). -/
def spentAt (l : List Char) : Option (List Char) :=
  match dropLit "spent".data l with
  | none => none
  | some r =>
    match wsPlus r with
    | none => none
    | some r2 =>
      match dropAnyLit ["at".data, "on".data] r2 with
      | none => none
      | some r3 =>
        match wsPlus r3 with
        | none => none
        | some r4 =>
          match r4 with
          | [] => none
          | c :: rest =>
            if asciiAlpha c then
              let t := rest.takeWhile grpChar
              if t = [] then none else some (c :: t)
            else none

/-- Leftmost match of the spent-at pattern. -/
def findSpentAt : List Char → Option (List Char)
  | [] => none
  | c :: rest =>
    match spentAt (c :: rest) with
    | some g => some g
    | none => findSpentAt rest

/-- The common-word filter list of the reference implementation. -/
def commonWords : List (List Char) :=
  ["the".data, "and".data, "or".data, "this".data, "that".data, "month".data,
   "week".data, "year".data, "day".data, "last".data, "recent".data,
   "charges".data, "transactions".data]

/-- A purely numeric capture (model of the test against the anchored digit regex). -/
def pureNumber (l : List Char) : Bool := !l.isEmpty ∧ l.all isDig

/-- The acceptance filter applied to a trimmed merchant capture by the
reference implementation: not a common word, not purely numeric, and longer
than one character. -/
def merchantOk (m : List Char) : Bool :=
  !(commonWords.contains m) ∧ !(pureNumber m) ∧ 1 < m.length

/-- The merchant pattern list in priority order. -/
def merchantPatterns : List (List Char → Option (List Char)) :=
  [findBrand, findFromAt, findCharges, findSpentAt]

/-- The pattern loop of the reference implementation: try each pattern in
order; a pattern with no match, or whose trimmed capture fails the filter,
falls through to the next pattern. -/
def firstAccepted (accept : List Char → Bool) :
    List (List Char → Option (List Char)) → List Char → Option (List Char)
  | [], _ => none
  | p :: ps, lq =>
    match p lq with
    | some cand =>
      let m := trimChars cand
      if accept m then some m else firstAccepted accept ps lq
    | none => firstAccepted accept ps lq

/-- Merchant extraction of the reference implementation. -/
def merchantFrom (lq : List Char) : Option (List Char) :=
  firstAccepted merchantOk merchantPatterns lq

/-! ## Amount extraction (reference implementation)

Models of the three independent regexes
(?:over|above|more\s+than)\s*\$?(\d+(?:,\d\x7b3\x7d)*(?:\.\d\x7b2\x7d)?)
and the analogous under and exactly forms; each match overwrites the
previous amount range. -/

/-- Zero-or-more repetitions of a comma followed by exactly three digits,
greedily; the digits are collected with the commas stripped (model of the
(,\d\x7b3\x7d)* part composed with replace commas by nothing). -/
def commaGroups (l : List Char) : List Char × List Char :=
  match l with
  | ',' :: a :: b :: c :: rest =>
    if isDig a ∧ isDig b ∧ isDig c then
      let (more, r2) := commaGroups rest
      (a :: b :: c :: more, r2)
    else ([], l)
  | _ => ([], l)

/-- An optional fraction of exactly two digits (the (\.\d\x7b2\x7d)? part),
returned as a value in hundredths. -/
def fracTwo (l : List Char) : Option Nat :=
  match l with
  | '.' :: a :: b :: _ =>
    if isDig a ∧ isDig b then some (10 * (a.toNat - 48) + (b.toNat - 48)) else none
  | _ => none

/-- The numeric capture \d+(?:,\d\x7b3\x7d)*(?:\.\d\x7b2\x7d)? at the current
position, evaluated as parseFloat of the capture with commas removed. -/
def amountAt (l : List Char) : Option ℚ :=
  match digPlus l with
  | none => none
  | some (ds, r) =>
    let (more, r2) := commaGroups r
    let i : Nat := digitsToNat (ds ++ more)
    match fracTwo r2 with
    | some f => some ((i : ℚ) + (f : ℚ) / 100)
    | none => some (i : ℚ)

/-- After an amount keyword: \s* then an optional dollar sign, then the
numeric capture.  Backtracking over the optional dollar sign is vacuous
because a digit is never a dollar sign. -/
def amtAfterKw (r : List Char) : Option ℚ :=
  let r2 := r.dropWhile wsChar
  match r2 with
  | '$' :: r3 => amountAt r3
  | _ => amountAt r2

/-- A two-word keyword alternative w1\s+w2 at the current position. -/
def twoWordKw (w1 w2 : List Char) (l : List Char) : Option (List Char) :=
  match dropLit w1 l with
  | none => none
  | some r =>
    match wsPlus r with
    | none => none
    | some r2 => dropLit w2 r2

/-- The over rule at the current position (over, above or more-than). -/
def overAt (l : List Char) : Option ℚ :=
  match dropLit "over".data l with
  | some r => amtAfterKw r
  | none =>
    match dropLit "above".data l with
    | some r => amtAfterKw r
    | none =>
      match twoWordKw "more".data "than".data l with
      | some r => amtAfterKw r
      | none => none

/-- The under rule at the current position (under, below or less-than). -/
def underAt (l : List Char) : Option ℚ :=
  match dropLit "under".data l with
  | some r => amtAfterKw r
  | none =>
    match dropLit "below".data l with
    | some r => amtAfterKw r
    | none =>
      match twoWordKw "less".data "than".data l with
      | some r => amtAfterKw r
      | none => none

/-- The exactly rule at the current position (exactly or equal-to). -/
def exactAt (l : List Char) : Option ℚ :=
  match dropLit "exactly".data l with
  | some r => amtAfterKw r
  | none =>
    match twoWordKw "equal".data "to".data l with
    | some r => amtAfterKw r
    | none => none

/-- Leftmost match of the over rule. -/
def findOver : List Char → Option ℚ
  | [] => none
  | c :: rest =>
    match overAt (c :: rest) with
    | some x => some x
    | none => findOver rest

/-- Leftmost match of the under rule. -/
def findUnder : List Char → Option ℚ
  | [] => none
  | c :: rest =>
    match underAt (c :: rest) with
    | some x => some x
    | none => findUnder rest

/-- Leftmost match of the exactly rule. -/
def findExact : List Char → Option ℚ
  | [] => none
  | c :: rest =>
    match exactAt (c :: rest) with
    | some x => some x
    | none => findExact rest

/-! ## Decimal rendering (model of Number#toLocaleString, en-US) -/

/-- The ASCII digit character of a value below ten. -/
def digCh (n : Nat) : Char := Char.ofNat (48 + n)

/-- Decimal digits, most significant first, with explicit fuel so that the
definition is structural and computes by kernel reduction. -/
def natDigitsAux : Nat → Nat → List Char
  | 0, _ => []
  | fuel + 1, n =>
    if n < 10 then [digCh n]
    else natDigitsAux fuel (n / 10) ++ [digCh (n % 10)]

/-- Decimal digits of a natural number, most significant first. -/
def natDigits (n : Nat) : List Char := natDigitsAux (n + 1) n

/-- The fuel of natDigitsAux is irrelevant once it dominates the argument. -/
theorem natDigitsAux_eq_of_lt (f1 f2 n : Nat) (h1 : n < f1) (h2 : n < f2) :
    natDigitsAux f1 n = natDigitsAux f2 n := by
  induction f1 using Nat.strong_induction_on generalizing f2 n with
  | _ f1 ih =>
    match f1, f2 with
    | g1 + 1, g2 + 1 =>
      simp only [natDigitsAux]
      by_cases hn : n < 10
      · simp [hn]
      · simp only [hn, if_false]
        have hd : n / 10 < g1 := by omega
        have hd2 : n / 10 < g2 := by omega
        rw [ih g1 (by omega) g2 (n / 10) hd hd2]

/-- The intended recursion equation of natDigits. -/
theorem natDigits_eq (n : Nat) :
    natDigits n = if n < 10 then [digCh n]
      else natDigits (n / 10) ++ [digCh (n % 10)] := by
  show natDigitsAux (n + 1) n = _
  simp only [natDigitsAux]
  by_cases hn : n < 10
  · simp [hn]
  · simp only [hn, if_false]
    rw [natDigitsAux_eq_of_lt n (n / 10 + 1) (n / 10) (by omega) (by omega)]
    rfl

/-- Decimal rendering of a natural number (model of a number in a JS
template literal). -/
def natRepr (n : Nat) : String := ⟨natDigits n⟩

/-- Insert a comma after every third character of a reversed digit list. -/
def commaRev : List Char → List Char
  | [] => []
  | [a] => [a]
  | [a, b] => [a, b]
  | [a, b, c] => [a, b, c]
  | a :: b :: c :: d :: rest => a :: b :: c :: ',' :: commaRev (d :: rest)

/-- Comma thousands grouping of a digit list. -/
def groupDigits (ds : List Char) : List Char := (commaRev ds.reverse).reverse

/-- Fraction rendering of a value in thousandths, below 1000: empty when
zero, otherwise a point and up to three digits with trailing zeros removed. -/
def fracPart (fp : Nat) : List Char :=
  if fp = 0 then []
  else if fp % 10 ≠ 0 then
    ['.', digCh (fp / 100), digCh (fp / 10 % 10), digCh (fp % 10)]
  else if fp % 100 ≠ 0 then ['.', digCh (fp / 100), digCh (fp / 10 % 10)]
  else ['.', digCh (fp / 100)]

/-- A rational scaled to thousandths and rounded half away from zero
(the default maximum of three fraction digits of toLocaleString).
Intended for nonnegative arguments. -/
def roundMilli (q : ℚ) : Nat := (⌊q * 1000 + 1 / 2⌋).toNat

/-- Model of Number#toLocaleString in the default en-US locale. -/
def toLocaleString (q : ℚ) : String :=
  let n := roundMilli |q|
  ⟨(if q < 0 then ['-'] else []) ++ groupDigits (natDigits (n / 1000)) ++ fracPart (n % 1000)⟩

/-! ## Calendar dates -/

/-- The injected clock: a calendar date together with its day of week
(0 = Sunday), standing for the new Date() calls of the source. -/
structure Today where
  year : Nat
  month : Nat
  day : Nat
  dow : Nat

/-- Gregorian leap year. -/
def leapYear (y : Nat) : Bool := (y % 4 = 0 ∧ y % 100 ≠ 0) ∨ y % 400 = 0

/-- Days in a calendar month. -/
def daysInMonth (y m : Nat) : Nat :=
  if m = 2 then (if leapYear y then 29 else 28)
  else if m = 4 ∨ m = 6 ∨ m = 9 ∨ m = 11 then 30 else 31

/-- Two-digit zero padding. -/
def pad2 (n : Nat) : String := ⟨if n < 10 then '0' :: natDigits n else natDigits n⟩

/-- Four-digit zero padding (toISOString year field). -/
def pad4 (n : Nat) : String :=
  ⟨List.replicate (4 - (natDigits n).length) '0' ++ natDigits n⟩

/-- Model of Date#toISOString().split at the T, first component, for a
calendar date under a UTC clock. -/
def isoDate (y m d : Nat) : String := pad4 y ++ "-" ++ pad2 m ++ "-" ++ pad2 d

/-- The previous calendar day (day of week rotates back). -/
def prevDay (t : Today) : Today :=
  if 1 < t.day then ⟨t.year, t.month, t.day - 1, (t.dow + 6) % 7⟩
  else if t.month = 1 then ⟨t.year - 1, 12, 31, (t.dow + 6) % 7⟩
  else ⟨t.year, t.month - 1, daysInMonth t.year (t.month - 1), (t.dow + 6) % 7⟩

/-- Go back a number of calendar days (model of setDate with a possibly
nonpositive argument). -/
def subDays (t : Today) : Nat → Today
  | 0 => t
  | k + 1 => subDays (prevDay t) k

/-- Value of two ASCII digit characters. -/
def twoDigitVal (a b : Char) : Nat := 10 * (a.toNat - 48) + (b.toNat - 48)

/-- Parse an ISO calendar date YYYY-MM-DD, optionally followed by a T time
part, with plausibility bounds (the modelled subset of Date parsing). -/
def parseIsoDate (l : List Char) : Option (Nat × Nat × Nat) :=
  match l with
  | y1 :: y2 :: y3 :: y4 :: '-' :: m1 :: m2 :: '-' :: e1 :: e2 :: rest =>
    if isDig y1 ∧ isDig y2 ∧ isDig y3 ∧ isDig y4 ∧ isDig m1 ∧ isDig m2
        ∧ isDig e1 ∧ isDig e2 ∧ (rest = [] ∨ rest.head? = some 'T') then
      let y := 100 * twoDigitVal y1 y2 + twoDigitVal y3 y4
      let mo := twoDigitVal m1 m2
      let dy := twoDigitVal e1 e2
      if 1 ≤ y ∧ 1 ≤ mo ∧ mo ≤ 12 ∧ 1 ≤ dy ∧ dy ≤ 31 then some (y, mo, dy)
      else none
    else none
  | _ => none

/-- Model of new Date(s).toLocaleDateString() under a UTC en-US runtime:
M/D/YYYY for a recognized date string, the Invalid Date text otherwise,
also for a missing field. -/
def toLocaleDateString (o : Option String) : String :=
  match o with
  | none => "Invalid Date"
  | some s =>
    match parseIsoDate s.data with
    | some (y, mo, dy) => natRepr mo ++ "/" ++ natRepr dy ++ "/" ++ natRepr y
    | none => "Invalid Date"

/-! ## The reference parser (tests/smart-query-parser.test.ts) -/

/-- The structured filter produced by the reference implementation of
parseNaturalLanguageQuery, for a call with no pre-existing arguments. -/
structure ParsedFilter where
  limit : Option Nat
  search : Option String
  startDate : Option String
  endDate : Option String
  absAmountRange : Option (Option ℚ × Option ℚ)

/-- The reference implementation of parseNaturalLanguageQuery from the
tests file, stage by stage in source order: quantity, merchant, time
period, amount ranges (over, then under, then exactly, each overwriting),
then the default limit. -/
def parseNaturalLanguageQuery (query : String) (today : Today) : ParsedFilter :=
  let lq := lowerData query
  let limit0 : Option Nat :=
    match findQuantity lq with
    | some n => if n ≠ 0 ∧ n ≤ 100 then some n else none
    | none => none
  let search : Option String := (merchantFrom lq).map (fun m => String.mk m)
  let dates : Option String × Option String :=
    if containsL lq "this month".data then
      (some (natRepr today.year ++ "-" ++ pad2 today.month ++ "-01"),
       some (isoDate today.year today.month (daysInMonth today.year today.month)))
    else if containsL lq "last month".data then
      let lm := if today.month = 1 then 12 else today.month - 1
      let yr := if today.month = 1 then today.year - 1 else today.year
      (some (natRepr yr ++ "-" ++ pad2 lm ++ "-01"),
       some (isoDate yr lm (daysInMonth yr lm)))
    else if containsL lq "this week".data then
      let sw := subDays today today.dow
      (some (isoDate sw.year sw.month sw.day),
       some (isoDate today.year today.month today.day))
    else (none, none)
  let ar0 : Option (Option ℚ × Option ℚ) :=
    match findOver lq with
    | some x => some (some x, none)
    | none => none
  let ar1 : Option (Option ℚ × Option ℚ) :=
    match findUnder lq with
    | some x => some (none, some x)
    | none => ar0
  let ar2 : Option (Option ℚ × Option ℚ) :=
    match findExact lq with
    | some x => some (some (x * (99 / 100)), some (x * (101 / 100)))
    | none => ar1
  let limit : Option Nat :=
    match limit0 with
    | some n => some n
    | none => some (if containsL lq "all".data then 100 else 25)
  ⟨limit, search, dates.1, dates.2, ar2⟩

/-! ## The server parser (src/index.ts) -/

namespace IndexTs

/-- The argument object produced by the server copy of
parseNaturalLanguageQuery. -/
structure EnhancedArgs where
  limit : Option Nat
  search : Option String
  startDate : Option String
  endDate : Option String
  absAmountRange : Option (Option ℚ × Option ℚ)
  sortByAmount : Option String

/-- The gas\s+station alternative at the current position. -/
def gasStationAt (l : List Char) : Bool :=
  match dropLit "gas".data l with
  | some r =>
    match wsPlus r with
    | some r2 => "station".data.isPrefixOf r2
    | none => false
  | none => false

/-- Occurrence of gas followed by white space and station
(the gas\s+station alternative). -/
def containsGasStation : List Char → Bool
  | [] => false
  | c :: rest => gasStationAt (c :: rest) ∨ containsGasStation rest

/-- The merchant pattern table of the server parser: each test is a
substring alternation on the lowercased query, tried in source order. -/
def idxMerchant (lq : List Char) : Option String :=
  let c : List Char → Bool := containsL lq
  if c "amazon".data ∨ c "amzn".data then some "amazon"
  else if c "walmart".data ∨ c "wal-mart".data then some "walmart"
  else if c "target".data then some "target"
  else if c "costco".data then some "costco"
  else if c "starbucks".data then some "starbucks"
  else if c "mcdonalds".data ∨ c "mcdonald\x27s".data then some "mcdonalds"
  else if c "netflix".data then some "netflix"
  else if c "spotify".data then some "spotify"
  else if c "uber".data ∨ c "lyft".data then some "uber"
  else if c "apple".data ∨ c "app store".data then some "apple"
  else if c "google".data ∨ c "youtube".data then some "google"
  else if containsGasStation lq ∨ c "gasoline".data ∨ c "fuel".data then some "gas"
  else if c "restaurant".data ∨ c "dining".data ∨ c "food".data then some "restaurant"
  else if c "grocery".data ∨ c "groceries".data then some "grocery"
  else if c "subscription".data ∨ c "subscriptions".data then some "subscription"
  else none

/-- The over branch of the combined amount regex of the server parser
(literal spaces in the more than alternative). -/
def idxOverAt (l : List Char) : Option ℚ :=
  match dropAnyLit ["over".data, "above".data, "more than".data] l with
  | some r => amtAfterKw r
  | none => none

/-- The under branch of the combined amount regex. -/
def idxUnderAt (l : List Char) : Option ℚ :=
  match dropAnyLit ["under".data, "below".data, "less than".data] l with
  | some r => amtAfterKw r
  | none => none

/-- Leftmost match of the combined over/under amount regex. -/
def idxAmountFind : List Char → Option ℚ
  | [] => none
  | c :: rest =>
    match idxOverAt (c :: rest) with
    | some x => some x
    | none =>
      match idxUnderAt (c :: rest) with
      | some x => some x
      | none => idxAmountFind rest

/-- The server copy of parseNaturalLanguageQuery (src/index.ts): quantity,
brand-table merchant, time periods with this-month ending at today, the
combined amount rule branching on an includes test, and sort hints.  This
copy assigns no default limit. -/
def parseNaturalLanguageQuery (query : String) (today : Today) : EnhancedArgs :=
  let lq := lowerData query
  let c : List Char → Bool := containsL lq
  let limit : Option Nat :=
    match findQuantity lq with
    | some n => if n ≠ 0 ∧ n ≤ 100 then some n else none
    | none => none
  let search : Option String := idxMerchant lq
  let dates : Option String × Option String :=
    if c "this month".data then
      (some (isoDate today.year today.month 1),
       some (isoDate today.year today.month today.day))
    else if c "last month".data then
      let lm := if today.month = 1 then 12 else today.month - 1
      let yr := if today.month = 1 then today.year - 1 else today.year
      (some (isoDate yr lm 1), some (isoDate yr lm (daysInMonth yr lm)))
    else if c "this week".data then
      let sw := subDays today today.dow
      (some (isoDate sw.year sw.month sw.day),
       some (isoDate today.year today.month today.day))
    else (none, none)
  let ar : Option (Option ℚ × Option ℚ) :=
    match idxAmountFind lq with
    | none => none
    | some amount =>
      if c "over".data ∨ c "above".data ∨ c "more than".data
      then some (some amount, none) else some (none, some amount)
  let sort : Option String :=
    if c "largest".data ∨ c "biggest".data ∨ c "highest".data then some "desc"
    else if c "smallest".data ∨ c "lowest".data then some "asc"
    else none
  ⟨limit, search, dates.1, dates.2, ar, sort⟩

end IndexTs

/-! ## JS value helpers for the formatters -/

/-- A possibly-undefined string in a template literal position. -/
def jsStr (o : Option String) : String := o.getD "undefined"

/-- The JS idiom x || dflt on a possibly-undefined string (the empty string
is falsy). -/
def jsOrStr (o : Option String) (dflt : String) : String :=
  match o with
  | some s => if s = "" then dflt else s
  | none => dflt

/-- The JS idiom a || b on possibly-undefined strings. -/
def jsOr (a b : Option String) : Option String :=
  match a with
  | some s => if s = "" then b else some s
  | none => b

/-- Math.abs on a JS number (none plays NaN). -/
def jsAbs (o : Option ℚ) : Option ℚ := o.map (fun q => |q|)

/-- Addition on JS numbers; NaN propagates. -/
def jsAdd (a b : Option ℚ) : Option ℚ :=
  match a, b with
  | some x, some y => some (x + y)
  | _, _ => none

/-- Number#toLocaleString on a JS number; NaN renders as NaN. -/
def jsNum (o : Option ℚ) : String :=
  match o with
  | some q => toLocaleString q
  | none => "NaN"

/-- The comparison x < 0 on a JS number; false for NaN. -/
def jsNeg (o : Option ℚ) : Bool :=
  match o with
  | some q => decide (q < 0)
  | none => false

/-- Truthiness of a possibly-undefined string. -/
def jsTruthyS (o : Option String) : Bool := o.getD "" ≠ ""

/-! ## Financial records (the RecordSet element shapes the formatters read) -/

/-- An object with an optional name field (merchant, category). -/
structure NameObj where
  name : Option String

/-- The account reference of a transaction record. -/
structure AccountRef where
  displayName : Option String
  mask : Option String

/-- A transaction record, with the fields read by either formatter. -/
structure Txn where
  id : Option String
  amount : Option ℚ
  date : Option String
  merchant : Option NameObj
  category : Option NameObj
  account : Option AccountRef
  merchantName : Option String
  description : Option String
  notes : Option String

/-- The type object of an account record. -/
structure TypeObj where
  name : Option String
  display : Option String

/-- The institution object of an account record. -/
structure Institution where
  name : Option String

/-- An account record, with the fields read by the optimized formatter. -/
structure Account where
  displayName : Option String
  currentBalance : Option ℚ
  isHidden : Bool
  type : Option TypeObj
  institution : Option Institution
  updatedAt : Option String

/-- Array#join with a separator. -/
def joinSep (sep : String) : List String → String
  | [] => ""
  | [s] => s
  | s :: t :: rest => s ++ sep ++ joinSep sep (t :: rest)

/-! ## Verbosity selection (src/createServer.ts) -/

/-- The three verbosity levels. -/
inductive VerbosityLevel
  | ultraLight
  | light
  | standard
deriving DecidableEq

/-- The record domains sized by RESPONSE_SIZE_ESTIMATES. -/
inductive DataType
  | accounts
  | transactions
  | categories
  | budgets
deriving DecidableEq

/-- Per-item response size estimates by verbosity level and record domain. -/
def RESPONSE_SIZE_ESTIMATES (v : VerbosityLevel) (dt : DataType) : Nat :=
  match v, dt with
  | .ultraLight, .accounts => 60
  | .ultraLight, .transactions => 80
  | .ultraLight, .categories => 40
  | .ultraLight, .budgets => 50
  | .light, .accounts => 180
  | .light, .transactions => 220
  | .light, .categories => 80
  | .light, .budgets => 120
  | .standard, .accounts => 800
  | .standard, .transactions => 600
  | .standard, .categories => 200
  | .standard, .budgets => 300

/-- calculateOptimalVerbosity: pick standard when its estimated total fits
the limit, otherwise light when it fits, otherwise ultra-light.  (The
ultra-light estimate computed by the source is never consulted.) -/
def calculateOptimalVerbosity (dataType : DataType) (itemCount : Nat)
    (maxResponseSize : Nat) : VerbosityLevel :=
  let standardSize := RESPONSE_SIZE_ESTIMATES .standard dataType * itemCount
  let lightSize := RESPONSE_SIZE_ESTIMATES .light dataType * itemCount
  if standardSize ≤ maxResponseSize then .standard
  else if lightSize ≤ maxResponseSize then .light
  else .ultraLight

/-! ## The optimized response formatter (src/createServer.ts) -/

namespace OptimizedResponseFormatter

/-- The balance read of the account formatter: currentBalance || 0. -/
def accBalance (a : Account) : ℚ := a.currentBalance.getD 0

/-- The account total: reduce of currentBalance || 0 from 0. -/
def accTotal (accounts : List Account) : ℚ :=
  accounts.foldl (fun s a => s + accBalance a) 0

/-- One account line of the light account format. -/
def accLineLight (a : Account) : String :=
  "• " ++ jsStr a.displayName ++ ": $" ++ toLocaleString (accBalance a) ++
    (if a.isHidden then " (hidden)" else "")

/-- The type rendering of the standard account format:
acc.type?.display || acc.type?.name in a template position. -/
def accType (a : Account) : String :=
  jsStr (jsOr (a.type.bind (fun t => t.display)) (a.type.bind (fun t => t.name)))

/-- The updated rendering of the standard account format. -/
def accUpdated (a : Account) : String :=
  match a.updatedAt with
  | some s => if s = "" then "Unknown" else toLocaleDateString (some s)
  | none => "Unknown"

/-- One account block of the standard account format. -/
def accLineStd (a : Account) : String :=
  "• **" ++ jsStr a.displayName ++ "**\n" ++
  "  Type: " ++ accType a ++ "\n" ++
  "  Balance: $" ++ toLocaleString (accBalance a) ++ "\n" ++
  "  Institution: " ++ jsOrStr (a.institution.bind (fun i => i.name)) "Manual" ++ "\n" ++
  "  Updated: " ++ accUpdated a

/-- OptimizedResponseFormatter.formatAccounts. -/
def formatAccounts (accounts : List Account) (verbosity : VerbosityLevel) : String :=
  match verbosity with
  | .ultraLight =>
    "💰 " ++ natRepr accounts.length ++ " accounts, Total: $" ++
      toLocaleString (accTotal accounts)
  | .light =>
    joinSep "\n" (accounts.map accLineLight) ++ "\n\nTotal: $" ++
      toLocaleString (accTotal accounts)
  | .standard =>
    joinSep "\n\n" (accounts.map accLineStd) ++ "\n\n**Total Balance: $" ++
      toLocaleString (accTotal accounts) ++ "**"

/-- The merchant rendering: txn.merchant?.name || the unknown-merchant text. -/
def txnMerchant (t : Txn) : String :=
  jsOrStr (t.merchant.bind (fun m => m.name)) "Unknown merchant"

/-- The category rendering: txn.category?.name || Uncategorized. -/
def txnCategory (t : Txn) : String :=
  jsOrStr (t.category.bind (fun m => m.name)) "Uncategorized"

/-- The negative-amount sign (txn.amount < 0, false for NaN). -/
def txnSign (t : Txn) : String := if jsNeg t.amount then "-" else ""

/-- The transaction volume: reduce of Math.abs(txn.amount) from 0, with NaN
propagation for a missing amount. -/
def txnVolume (transactions : List Txn) : Option ℚ :=
  transactions.foldl (fun s t => jsAdd s (jsAbs t.amount)) (some 0)

/-- One transaction line pair of the light transaction format. -/
def txnLineLight (t : Txn) : String :=
  "• " ++ toLocaleDateString t.date ++ " - " ++ txnMerchant t ++ "\n  " ++
    txnSign t ++ "$" ++ jsNum (jsAbs t.amount) ++ " • " ++ txnCategory t

/-- The mask suffix of the standard transaction format. -/
def txnMask (t : Txn) : String :=
  match t.account.bind (fun a => a.mask) with
  | some m => if m = "" then "" else " (..." ++ m ++ ")"
  | none => ""

/-- One transaction block of the standard transaction format. -/
def txnLineStd (t : Txn) : String :=
  "• " ++ toLocaleDateString t.date ++ " - **" ++ txnMerchant t ++ "**\n" ++
  "  Amount: " ++ txnSign t ++ "$" ++ jsNum (jsAbs t.amount) ++ "\n" ++
  "  Category: " ++ txnCategory t ++ "\n" ++
  "  Account: " ++ jsStr (t.account.bind (fun a => a.displayName)) ++ txnMask t

/-- The smart-query header line, present when an original query was passed
and nonempty. -/
def queryHeader (originalQuery : Option String) : String :=
  match originalQuery with
  | some q => if q = "" then "" else "🧠 **Smart Query**: \"" ++ q ++ "\"\n\n"
  | none => ""

/-- OptimizedResponseFormatter.formatTransactions; an empty record set
returns the empty string before any other step. -/
def formatTransactions (transactions : List Txn) (verbosity : VerbosityLevel)
    (originalQuery : Option String) : String :=
  match transactions with
  | [] => ""
  | _ :: _ =>
    let header := queryHeader originalQuery
    match verbosity with
    | .ultraLight =>
      header ++ "💳 " ++ natRepr transactions.length ++ " transactions, Volume: $" ++
        jsNum (txnVolume transactions)
    | .light => header ++ joinSep "\n" (transactions.map txnLineLight)
    | .standard =>
      header ++ "💳 **Transaction Summary** (" ++ natRepr transactions.length ++
        " transactions)\n\n" ++ joinSep "\n\n" (transactions.map txnLineStd) ++
        "\n\n**Total Transaction Volume: $" ++ jsNum (txnVolume transactions) ++ "**"

end OptimizedResponseFormatter

/-! ## The server transaction formatter (src/index.ts formatTransactions) -/

namespace IndexTs

/-- The relevant formatting arguments of the server formatter. -/
structure OriginalArgs where
  verbosity : Option String
  sortByAmount : Option String

/-- Absolute value of txn.amount || 0. -/
def absAmt (t : Txn) : ℚ := |t.amount.getD 0|

/-- Stable order for the descending comparator amountB - amountA. -/
def descLe (a b : Txn) : Bool := absAmt b ≤ absAmt a

/-- Stable order for the ascending comparator amountA - amountB. -/
def ascLe (a b : Txn) : Bool := absAmt a ≤ absAmt b

/-- The spread copy followed by the optional in-place sort: a stable sort by
absolute amount when a sort hint is present. -/
def processedTransactions (transactions : List Txn) (args : OriginalArgs) : List Txn :=
  if jsTruthyS args.sortByAmount then
    transactions.mergeSort
      (if args.sortByAmount = some "desc" then descLe else ascLe)
  else transactions

/-- The forEach accumulation of Math.abs(txn.amount || 0). -/
def totalAmount (l : List Txn) : ℚ := l.foldl (fun s t => s + absAmt t) 0

/-- The date rendering: txn.date ? toLocaleDateString : the unknown text. -/
def txnDate (t : Txn) : String :=
  match t.date with
  | some s => if s = "" then "Unknown date" else toLocaleDateString (some s)
  | none => "Unknown date"

/-- txn.merchantName || txn.description || the unknown-merchant text. -/
def txnMerch (t : Txn) : String :=
  jsOrStr (jsOr t.merchantName t.description) "Unknown merchant"

/-- txn.category?.name || Uncategorized. -/
def txnCat (t : Txn) : String := jsOrStr (t.category.bind (fun m => m.name)) "Uncategorized"

/-- txn.account?.displayName || Unknown. -/
def txnAcct (t : Txn) : String := jsOrStr (t.account.bind (fun a => a.displayName)) "Unknown"

/-- The amount sign: plus for amount >= 0, minus otherwise. -/
def amtSign (t : Txn) : String := if 0 ≤ t.amount.getD 0 then "+" else "-"

/-- The rank marker: a number for ranked output, a bullet otherwise. -/
def rankMark (sorted : Bool) (i : Nat) : String :=
  if sorted then natRepr (i + 1) ++ ". " else "• "

/-- One transaction block of the summary format. -/
def lineSummary (sorted : Bool) (p : Nat × Txn) : String :=
  rankMark sorted p.1 ++ txnDate p.2 ++ " - **" ++ txnMerch p.2 ++ "**\n" ++
  "  Amount: " ++ amtSign p.2 ++ "$" ++ toLocaleString (absAmt p.2) ++ "\n" ++
  "  Category: " ++ txnCat p.2 ++ "\n" ++
  "  Account: " ++ txnAcct p.2

/-- The notes tail of the detailed format: a literal line break and indent,
then the notes when present. -/
def notesTail (t : Txn) : String :=
  match t.notes with
  | some s => if s = "" then "" else "Notes: " ++ s
  | none => ""

/-- One transaction block of the detailed format. -/
def lineDetailed (sorted : Bool) (p : Nat × Txn) : String :=
  rankMark sorted p.1 ++ txnDate p.2 ++ " - **" ++ txnMerch p.2 ++ "**\n" ++
  "  Amount: " ++ amtSign p.2 ++ "$" ++ toLocaleString (absAmt p.2) ++ "\n" ++
  "  Category: " ++ txnCat p.2 ++ "\n" ++
  "  Account: " ++ txnAcct p.2 ++ "\n" ++
  "  ID: " ++ jsOrStr p.2.id "N/A" ++ "\n  " ++ notesTail p.2

/-- The remainder line after the display cap. -/
def moreLine (n shown : Nat) : String :=
  if shown < n then "\n\n... and " ++ natRepr (n - shown) ++ " more transactions"
  else ""

/-- The body of the server formatTransactions on the already-processed list. -/
def renderProcessed (processed : List Txn) (args : OriginalArgs) : String :=
  let verbosity := args.verbosity.getD "summary"
  let total := totalAmount processed
  if verbosity = "brief" then
    "💳 " ++ natRepr processed.length ++ " transactions, Total: $" ++
      toLocaleString total
  else if verbosity = "detailed" then
    let displayCount := min 25 processed.length
    "💳 **Transaction Summary** (" ++ natRepr processed.length ++ " transactions)\n\n" ++
    joinSep "\n\n"
      ((processed.take displayCount).enum.map (lineDetailed (jsTruthyS args.sortByAmount))) ++
    moreLine processed.length displayCount ++
    "\n\n**Total Transaction Volume: $" ++ toLocaleString total ++ "**"
  else
    let displayCount := min 20 processed.length
    "💳 **Transaction Summary** (" ++ natRepr processed.length ++ " transactions)\n\n" ++
    joinSep "\n\n"
      ((processed.take displayCount).enum.map (lineSummary (jsTruthyS args.sortByAmount))) ++
    moreLine processed.length displayCount ++
    "\n\n**Total Transaction Volume: $" ++ toLocaleString total ++ "**"

/-- The server formatTransactions (src/index.ts). -/
def formatTransactions (transactions : List Txn) (args : OriginalArgs) : String :=
  renderProcessed (processedTransactions transactions args) args

/-- The same computation with the arrays held in an explicit store, making
the aliasing of the source observable: the spread copy allocates a fresh
array at the end of the store, and the optional sort writes only to that
fresh array.  The result pairs the output text with the final store. -/
def formatTransactionsStore (store : List (List Txn)) (ref : Nat)
    (args : OriginalArgs) : String × List (List Txn) :=
  let transactions := store.getD ref []
  let copyRef := store.length
  let store1 := store ++ [transactions]
  let store2 :=
    if jsTruthyS args.sortByAmount then
      store1.set copyRef
        ((store1.getD copyRef []).mergeSort
          (if args.sortByAmount = some "desc" then descLe else ascLe))
    else store1
  (renderProcessed (store2.getD copyRef []) args, store2)

end IndexTs

/-! ## Spec-side definitions used to state the claims -/

/-- A reference clock for concrete instances: Saturday 2024-06-15. -/
def refToday : Today := ⟨2024, 6, 15, 6⟩

/-- The candidate sequence of the merchant stage: the trimmed capture of
each pattern that matches, in pattern priority order. -/
def merchantCandidates (lq : List Char) : List (List Char) :=
  (merchantPatterns.filterMap (fun p => p lq)).map trimChars

/-- The acceptance filter as worded by the claim: not a stop word and not
purely numeric (the length filter of the code is absent). -/
def claimOk (m : List Char) : Bool := !(commonWords.contains m) ∧ !(pureNumber m)

/-- Modelled from the claim wording: the first candidate that is not a stop
word and not purely numeric. -/
def specMerchantClaim (lq : List Char) : Option (List Char) :=
  ((merchantCandidates lq).filter claimOk).head?

/-- The claim amended with the length filter the code applies. -/
def specMerchantAmended (lq : List Char) : Option (List Char) :=
  ((merchantCandidates lq).filter merchantOk).head?

/-- Modelled from the claim wording of C6: the sum over all records of the
absolute value of the amount, a missing amount counting as zero. -/
def sumAbsAmounts (l : List Txn) : ℚ := (l.map (fun t => |t.amount.getD 0|)).sum

/-! ## Concrete fixtures for witnesses and counterexamples -/

/-- A minimal transaction record: amount 1, short merchant and category
names, no account. -/
def cexTxn : Txn :=
  ⟨none, some 1, some "2024-01-15", some ⟨some "a"⟩, some ⟨some "b"⟩, none,
   none, none, none⟩

/-- A second small transaction record, negative amount. -/
def wTxn2 : Txn :=
  ⟨some "2", some (-4567 / 100), some "2024-01-14", some ⟨some "Starbucks"⟩,
   some ⟨some "Dining"⟩, some ⟨some "Chase Checking", some "1234"⟩,
   some "Starbucks", none, none⟩

/-- A two-record transaction fixture. -/
def wTxns : List Txn := [cexTxn, wTxn2]

/-- A small account record. -/
def wAcct1 : Account :=
  ⟨some "Chase Checking", some (523456 / 100), false,
   some ⟨some "checking", some "Checking"⟩, some ⟨some "Chase"⟩,
   some "2024-01-01T12:00:00Z"⟩

/-- A second account record with missing fields. -/
def wAcct2 : Account := ⟨some "S", none, true, none, none, none⟩

/-- A two-record account fixture. -/
def wAccts : List Account := [wAcct1, wAcct2]

/-! ## Helper lemmas about the parser projections -/

/-- The limit field of the reference parser, as a single recursion-free
description: the first quantity match when it is nonzero and at most 100,
otherwise the all-dependent default. -/
theorem parse_limit (q : String) (t : Today) :
    (parseNaturalLanguageQuery q t).limit =
      match findQuantity (lowerData q) with
      | some n =>
        if n ≠ 0 ∧ n ≤ 100 then some n
        else some (if containsL (lowerData q) "all".data then 100 else 25)
      | none => some (if containsL (lowerData q) "all".data then 100 else 25) := by
  simp only [parseNaturalLanguageQuery]
  cases h : findQuantity (lowerData q) with
  | none => rfl
  | some n =>
    by_cases hc : n ≠ 0 ∧ n ≤ 100 <;> simp [hc]

/-- The search field of the reference parser is the merchant loop result. -/
theorem parse_search (q : String) (t : Today) :
    (parseNaturalLanguageQuery q t).search
      = (merchantFrom (lowerData q)).map (fun m => String.mk m) := rfl

/-- The amount-range field of the reference parser: the three rules are
applied in the order over, under, exactly, each overwriting the previous
result, so the last matching rule survives. -/
theorem parse_amountRange (q : String) (t : Today) :
    (parseNaturalLanguageQuery q t).absAmountRange =
      match findExact (lowerData q) with
      | some x => some (some (x * (99 / 100)), some (x * (101 / 100)))
      | none =>
        match findUnder (lowerData q) with
        | some x => some (none, some x)
        | none =>
          match findOver (lowerData q) with
          | some x => some (some x, none)
          | none => none := by
  simp only [parseNaturalLanguageQuery]

/-- The pattern loop computes the first accepted trimmed candidate. -/
theorem firstAccepted_eq (accept : List Char → Bool)
    (ps : List (List Char → Option (List Char))) (lq : List Char) :
    firstAccepted accept ps lq =
      (((ps.filterMap (fun p => p lq)).map trimChars).filter accept).head? := by
  induction ps with
  | nil => rfl
  | cons p ps ih =>
    simp only [firstAccepted, List.filterMap_cons]
    cases hp : p lq with
    | none => simpa using ih
    | some cand =>
      simp only [List.map_cons, List.filter_cons]
      by_cases ha : accept (trimChars cand) <;> simp [ha, ih]

/-! ## C6 and C10: the server transaction formatter -/

/-- The forEach fold of absolute amounts equals the accumulator plus the
map-sum. -/
theorem foldl_add_absAmt (l : List Txn) (a : ℚ) :
    l.foldl (fun s t => s + IndexTs.absAmt t) a = a + sumAbsAmounts l := by
  induction l generalizing a with
  | nil => simp [sumAbsAmounts]
  | cons t ts ih =>
    simp only [List.foldl_cons, ih, sumAbsAmounts, List.map_cons, List.sum_cons]
    show a + IndexTs.absAmt t + _ = _
    rw [IndexTs.absAmt]
    ring

/-- The accumulated total is the sum of absolute amounts. -/
theorem totalAmount_eq (l : List Txn) : IndexTs.totalAmount l = sumAbsAmounts l := by
  have h := foldl_add_absAmt l 0
  simpa [IndexTs.totalAmount] using h

/-- The processed list is a permutation of the input. -/
theorem processed_perm (txns : List Txn) (args : IndexTs.OriginalArgs) :
    (IndexTs.processedTransactions txns args).Perm txns := by
  unfold IndexTs.processedTransactions
  split
  · exact List.mergeSort_perm txns _
  · exact List.Perm.refl txns

/-- Permutations preserve the sum of absolute amounts. -/
theorem sumAbsAmounts_perm (l1 l2 : List Txn) (h : l1.Perm l2) :
    sumAbsAmounts l1 = sumAbsAmounts l2 :=
  (h.map _).sum_eq

/-- Splitting a trailing three-part suffix off a left-nested append. -/
theorem append_suffix3 (x f g h : String) :
    ∃ p, ((x ++ f) ++ g) ++ h = p ++ ((f ++ g) ++ h) :=
  ⟨x, by simp [String.append_assoc]⟩

/-! ## Length infrastructure for the verbosity-monotonicity claim -/

/-- Comma grouping adds one character per completed group of three. -/
theorem commaRev_length (l : List Char) :
    (commaRev l).length = l.length + (l.length - 1) / 3 := by
  induction l using commaRev.induct with
  | case5 a b c d rest ih =>
    simp only [commaRev, List.length_cons, ih]
    omega
  | _ => simp [commaRev]

/-- Length of the grouped digit rendering. -/
theorem groupDigits_length (ds : List Char) :
    (groupDigits ds).length = ds.length + (ds.length - 1) / 3 := by
  simp [groupDigits, commaRev_length]

/-- natRepr length is the digit count. -/
theorem natRepr_length (n : Nat) : (natRepr n).length = (natDigits n).length := rfl

/-- Digit lists are never empty. -/
theorem natDigits_len_pos (n : Nat) : 1 ≤ (natDigits n).length := by
  rw [natDigits_eq]
  split
  · simp
  · simp

/-- Digit count for a number of at least ten. -/
theorem natDigits_len_succ (n : Nat) (h : 10 ≤ n) :
    (natDigits n).length = (natDigits (n / 10)).length + 1 := by
  rw [natDigits_eq]
  rw [if_neg (by omega)]
  simp

/-- Digit count is monotone. -/
theorem natDigits_len_mono (m n : Nat) (h : m ≤ n) :
    (natDigits m).length ≤ (natDigits n).length := by
  induction n using Nat.strong_induction_on generalizing m with
  | _ n ih =>
    by_cases hn : n < 10
    · have hm : m < 10 := by omega
      rw [natDigits_eq, if_pos hm, natDigits_eq, if_pos hn]
      simp
    · by_cases hm : m < 10
      · calc (natDigits m).length = 1 := by rw [natDigits_eq, if_pos hm]; rfl
          _ ≤ (natDigits n).length := natDigits_len_pos n
      · rw [natDigits_len_succ m (by omega), natDigits_len_succ n (by omega)]
        have := ih (n / 10) (by omega) (m / 10) (Nat.div_le_div_right h)
        omega

/-- A number bounded by ten times another has at most one more digit. -/
theorem natDigits_len_le_ten (m n : Nat) (h : m ≤ 10 * n + 9) :
    (natDigits m).length ≤ (natDigits n).length + 1 := by
  by_cases hm : m < 10
  · have : (natDigits m).length = 1 := by rw [natDigits_eq, if_pos hm]; rfl
    omega
  · rw [natDigits_len_succ m (by omega)]
    have : m / 10 ≤ n := by omega
    have := natDigits_len_mono (m / 10) n this
    omega

/-- The digit count of a sum is at most one more than the larger digit
count. -/
theorem natDigits_len_add (a b : Nat) :
    (natDigits (a + b + 1)).length
      ≤ max (natDigits a).length (natDigits b).length + 1 := by
  rcases Nat.le_total a b with hab | hab
  · have h1 : a + b + 1 ≤ 10 * b + 9 := by omega
    have := natDigits_len_le_ten (a + b + 1) b h1
    have := natDigits_len_mono a b hab
    omega
  · have h1 : a + b + 1 ≤ 10 * a + 9 := by omega
    have := natDigits_len_le_ten (a + b + 1) a h1
    have := natDigits_len_mono b a hab
    omega

/-- Digit count is at most the number itself, for positive numbers. -/
theorem natDigits_len_le_self (n : Nat) (h : 1 ≤ n) :
    (natDigits n).length ≤ n := by
  induction n using Nat.strong_induction_on with
  | _ n ih =>
    by_cases hn : n < 10
    · have : (natDigits n).length = 1 := by rw [natDigits_eq, if_pos hn]; rfl
      omega
    · rw [natDigits_len_succ n (by omega)]
      have h10 : 1 ≤ n / 10 := by omega
      have := ih (n / 10) (by omega) h10
      omega

/-- The fraction rendering takes at most four characters. -/
theorem fracPart_length_le (fp : Nat) : (fracPart fp).length ≤ 4 := by
  unfold fracPart
  split_ifs <;> simp

/-- The grouped-length function is monotone. -/
theorem glen_mono (k m : Nat) (h : k ≤ m) : k + (k - 1) / 3 ≤ m + (m - 1) / 3 := by
  have := Nat.div_le_div_right (c := 3) (Nat.sub_le_sub_right h 1)
  omega

/-- One more digit adds at most two grouped characters. -/
theorem glen_succ (k : Nat) : (k + 1) + k / 3 ≤ (k + (k - 1) / 3) + 2 := by
  omega

/-- toLocaleString of a nonnegative rational: exact length decomposition. -/
theorem tls_len_eq (q : ℚ) (h : 0 ≤ q) :
    (toLocaleString q).length =
      ((natDigits (roundMilli q / 1000)).length
        + ((natDigits (roundMilli q / 1000)).length - 1) / 3)
      + (fracPart (roundMilli q % 1000)).length := by
  unfold toLocaleString
  rw [abs_of_nonneg h, if_neg (by exact not_lt.mpr h)]
  show (([] : List Char) ++ _ ++ _).length = _
  rw [List.nil_append, List.length_append, groupDigits_length]

/-- toLocaleString output is never empty. -/
theorem tls_len_pos (q : ℚ) : 1 ≤ (toLocaleString q).length := by
  unfold toLocaleString
  show (1 : Nat) ≤ (_ ++ groupDigits _ ++ _).length
  rw [List.length_append, List.length_append, groupDigits_length]
  have := natDigits_len_pos (roundMilli |q| / 1000)
  omega

/-- jsNum output is never empty. -/
theorem jsNum_len_pos (o : Option ℚ) : 1 ≤ (jsNum o).length := by
  cases o with
  | none => decide
  | some q => exact tls_len_pos q

/-- Rounding to thousandths is subadditive up to one unit. -/
theorem roundMilli_add_le (x y : ℚ) (hx : 0 ≤ x) (hy : 0 ≤ y) :
    roundMilli (x + y) ≤ roundMilli x + roundMilli y + 1 := by
  unfold roundMilli
  have hfl : ⌊(x + y) * 1000 + 1 / 2⌋ ≤ ⌊x * 1000 + 1 / 2⌋ + ⌊y * 1000 + 1 / 2⌋ + 1 := by
    have h1 := Int.lt_floor_add_one (x * 1000 + 1 / 2)
    have h2 := Int.lt_floor_add_one (y * 1000 + 1 / 2)
    have : (x + y) * 1000 + 1 / 2 <
        ((⌊x * 1000 + 1 / 2⌋ + ⌊y * 1000 + 1 / 2⌋ + 2 : ℤ) : ℚ) := by
      push_cast
      linarith
    have := Int.floor_lt.mpr this
    omega
  have hx0 : 0 ≤ ⌊x * 1000 + 1 / 2⌋ := by
    apply Int.floor_nonneg.mpr
    positivity
  have hy0 : 0 ≤ ⌊y * 1000 + 1 / 2⌋ := by
    apply Int.floor_nonneg.mpr
    positivity
  omega

/-- Division by 1000 of a near-sum is bounded by the sum of divisions. -/
theorem nat_div_thousand_add (a b : Nat) :
    (a + b + 1) / 1000 ≤ a / 1000 + b / 1000 + 1 := by
  omega

/-- Key bound: the rendering of a sum of nonnegative rationals is at most
five characters longer than the two renderings together. -/
theorem tls_len_add (x y : ℚ) (hx : 0 ≤ x) (hy : 0 ≤ y) :
    (toLocaleString (x + y)).length
      ≤ (toLocaleString x).length + (toLocaleString y).length + 5 := by
  have hxy : 0 ≤ x + y := by linarith
  rw [tls_len_eq x hx, tls_len_eq y hy, tls_len_eq (x + y) hxy]
  set A := roundMilli x with hA
  set B := roundMilli y with hB
  set dA := (natDigits (A / 1000)).length with hdA
  set dB := (natDigits (B / 1000)).length with hdB
  have hC : roundMilli (x + y) ≤ A + B + 1 := roundMilli_add_le x y hx hy
  have hip : roundMilli (x + y) / 1000 ≤ A / 1000 + B / 1000 + 1 := by
    calc roundMilli (x + y) / 1000 ≤ (A + B + 1) / 1000 :=
          Nat.div_le_div_right hC
      _ ≤ A / 1000 + B / 1000 + 1 := nat_div_thousand_add A B
  have hd : (natDigits (roundMilli (x + y) / 1000)).length ≤ max dA dB + 1 := by
    calc (natDigits (roundMilli (x + y) / 1000)).length
        ≤ (natDigits (A / 1000 + B / 1000 + 1)).length :=
          natDigits_len_mono _ _ hip
      _ ≤ max dA dB + 1 := natDigits_len_add (A / 1000) (B / 1000)
  have hfA := fracPart_length_le (A % 1000)
  have hfB := fracPart_length_le (B % 1000)
  have hfC := fracPart_length_le (roundMilli (x + y) % 1000)
  have hposA : 1 ≤ dA := natDigits_len_pos _
  have hposB : 1 ≤ dB := natDigits_len_pos _
  set dC := (natDigits (roundMilli (x + y) / 1000)).length with hdC
  have hglen : dC + (dC - 1) / 3 ≤ (max dA dB + (max dA dB - 1) / 3) + 2 := by
    calc dC + (dC - 1) / 3 ≤ (max dA dB + 1) + ((max dA dB + 1) - 1) / 3 :=
          glen_mono _ _ hd
      _ ≤ (max dA dB + (max dA dB - 1) / 3) + 2 := by
          have := glen_succ (max dA dB)
          omega
  rcases Nat.le_total dA dB with hmax | hmax
  · rw [Nat.max_eq_right hmax] at hglen
    have := glen_mono dA dB hmax
    omega
  · rw [Nat.max_eq_left hmax] at hglen
    have := glen_mono dB dA hmax
    omega

/-- Fold version of the rendering bound over a nonempty list of
nonnegative rationals. -/
theorem tls_len_sum (l : List ℚ) (h : ∀ x ∈ l, 0 ≤ x) (hne : l ≠ []) :
    (toLocaleString l.sum).length
      ≤ (l.map (fun x => (toLocaleString x).length)).sum + 5 * (l.length - 1) := by
  induction l with
  | nil => exact absurd rfl hne
  | cons x t ih =>
    cases t with
    | nil => simp
    | cons y s =>
      have hx : 0 ≤ x := h x (List.mem_cons_self x _)
      have ht : ∀ z ∈ y :: s, 0 ≤ z := fun z hz => h z (List.mem_cons_of_mem x hz)
      have hsum : 0 ≤ (y :: s).sum := List.sum_nonneg ht
      have h1 : (toLocaleString ((x :: y :: s).sum)).length
          ≤ (toLocaleString x).length + (toLocaleString ((y :: s).sum)).length + 5 := by
        rw [List.sum_cons]
        exact tls_len_add x _ hx hsum
      have h2 := ih ht (by simp)
      simp only [List.map_cons, List.sum_cons, List.length_cons] at h1 h2 ⊢
      omega

/-- Characterization of the transaction volume fold: the absolute-amount
sum when every amount is present, NaN otherwise. -/
theorem foldl_jsAdd_none (l : List Txn) :
    l.foldl (fun s t => jsAdd s (jsAbs t.amount)) none = none := by
  induction l with
  | nil => rfl
  | cons t ts ih => simpa [jsAdd] using ih

/-- The volume fold from a numeric accumulator. -/
theorem foldl_jsAdd_some (l : List Txn) (a : ℚ) :
    l.foldl (fun s t => jsAdd s (jsAbs t.amount)) (some a) =
      if l.all (fun t => t.amount.isSome) then some (a + sumAbsAmounts l)
      else none := by
  induction l generalizing a with
  | nil => simp [sumAbsAmounts]
  | cons t ts ih =>
    rw [List.foldl_cons]
    cases ha : t.amount with
    | none =>
      have hstep : jsAdd (some a) (jsAbs none) = none := rfl
      rw [hstep, foldl_jsAdd_none]
      have hfalse : (t :: ts).all (fun t => t.amount.isSome) = false := by
        simp [List.all_cons, ha]
      rw [hfalse]
      simp
    | some v =>
      have hstep : jsAdd (some a) (jsAbs (some v)) = some (a + |v|) := rfl
      rw [hstep, ih]
      have hall : (t :: ts).all (fun t => t.amount.isSome)
          = ts.all (fun t => t.amount.isSome) := by
        simp [List.all_cons, ha]
      have hsum : sumAbsAmounts (t :: ts) = |v| + sumAbsAmounts ts := by
        simp [sumAbsAmounts, ha]
      rw [hall, hsum]
      split
      · congr 1
        ring
      · rfl

set_option maxHeartbeats 2000000 in
/-- The rendered volume of a nonempty record set is at most the sum of the
rendered per-record amounts plus five characters per additional record. -/
theorem jsNum_txnVolume_le (l : List Txn) (hne : l ≠ []) :
    (jsNum (OptimizedResponseFormatter.txnVolume l)).length
      ≤ (l.map (fun t => (jsNum (jsAbs t.amount)).length)).sum + 5 * (l.length - 1) := by
  unfold OptimizedResponseFormatter.txnVolume
  rw [foldl_jsAdd_some]
  by_cases hall : l.all (fun t => t.amount.isSome)
  · rw [if_pos hall, zero_add]
    have hjs : (jsNum (some (sumAbsAmounts l))).length
        = (toLocaleString (sumAbsAmounts l)).length := rfl
    rw [hjs, sumAbsAmounts]
    have hnn : ∀ x ∈ l.map (fun t => |t.amount.getD 0|), 0 ≤ x := by
      intro x hx
      rcases List.mem_map.mp hx with ⟨t, _, rfl⟩
      exact abs_nonneg _
    have hne2 : l.map (fun t => |t.amount.getD 0|) ≠ [] := by
      simpa using hne
    have h := tls_len_sum (l.map (fun t => |t.amount.getD 0|)) hnn hne2
    simp only [List.map_map, Function.comp_def, List.length_map] at h
    refine le_trans h (Nat.add_le_add_right (List.sum_le_sum ?_) _)
    intro t ht
    have hsome := List.all_eq_true.mp hall t ht
    cases hta : t.amount with
    | none => rw [hta] at hsome; simp at hsome
    | some v => exact le_of_eq rfl
  · rw [if_neg hall]
    have h3 : (jsNum none).length = 3 := rfl
    rw [h3]
    have hone : ∀ t ∈ l, 1 ≤ (jsNum (jsAbs t.amount)).length :=
      fun t _ => jsNum_len_pos _
    rcases List.exists_mem_of_ne_nil l hne with ⟨t0, ht0⟩
    have hbad : ∃ t ∈ l, t.amount = none := by
      by_contra hno
      push_neg at hno
      apply hall
      rw [List.all_eq_true]
      intro t ht
      cases hta : t.amount with
      | none => exact absurd hta (hno t ht)
      | some v => simp
    rcases hbad with ⟨tb, htb, htbn⟩
    have h3' : (jsNum (jsAbs tb.amount)).length = 3 := by
      rw [htbn]; rfl
    calc (3 : Nat) = (jsNum (jsAbs tb.amount)).length := h3'.symm
      _ ≤ (l.map (fun t => (jsNum (jsAbs t.amount)).length)).sum :=
          List.single_le_sum (fun x _ => Nat.zero_le x) _ (List.mem_map_of_mem _ htb)
      _ ≤ _ := Nat.le_add_right _ _

/-- The locale date rendering is at least five characters. -/
theorem dateLocale_len_ge (o : Option String) : 5 ≤ (toLocaleDateString o).length := by
  cases o with
  | none => decide
  | some s =>
    have he : toLocaleDateString (some s)
        = match parseIsoDate s.data with
          | some (y, mo, dy) => natRepr mo ++ "/" ++ natRepr dy ++ "/" ++ natRepr y
          | none => "Invalid Date" := rfl
    rw [he]
    rcases parseIsoDate s.data with _ | ⟨y, mo, dy⟩
    · decide
    · dsimp only
      rw [String.length_append, String.length_append, String.length_append,
        String.length_append, natRepr_length, natRepr_length, natRepr_length]
      have h1 := natDigits_len_pos mo
      have h2 := natDigits_len_pos dy
      have h3 := natDigits_len_pos y
      have hs : ("/" : String).length = 1 := rfl
      omega

/-- The fallback-or rendering is nonempty whenever the fallback is. -/
theorem jsOrStr_len_pos (o : Option String) (d : String) (hd : 1 ≤ d.length) :
    1 ≤ (jsOrStr o d).length := by
  cases o with
  | none => exact hd
  | some s =>
    have he : jsOrStr (some s) d = if s = "" then d else s := rfl
    rw [he]
    by_cases hs : s = ""
    · rw [if_pos hs]; exact hd
    · rw [if_neg hs]
      cases s with
      | mk data =>
        cases data with
        | nil => exact absurd rfl hs
        | cons c cs =>
          have hl : (String.mk (c :: cs)).length = cs.length + 1 := rfl
          omega

/-- Length of a separator join. -/
theorem joinSep_length (sep : String) (l : List String) :
    (joinSep sep l).length
      = (l.map String.length).sum + sep.length * (l.length - 1) := by
  induction l using joinSep.induct sep with
  | case1 => simp [joinSep]
  | case2 s => simp [joinSep]
  | case3 s t rest ih =>
    simp only [joinSep, String.length_append, ih, List.map_cons, List.sum_cons,
      List.length_cons, Nat.add_sub_cancel]
    have hmul : sep.length * (rest.length + 1) = sep.length * rest.length + sep.length := by
      ring
    omega

/-- A pointwise constant lower bound on a mapped sum. -/
theorem sum_map_const_le {α : Type} (l : List α) (f : α → Nat) (c : Nat)
    (h : ∀ x ∈ l, c ≤ f x) : c * l.length ≤ (l.map f).sum := by
  calc c * l.length = (l.map (fun _ => c)).sum := by simp [Nat.mul_comm]
    _ ≤ _ := List.sum_le_sum h

/-! ## Per-line and per-format length bounds -/

/-- Exact length of a light transaction line. -/
theorem txnLineLight_len (t : Txn) :
    (OptimizedResponseFormatter.txnLineLight t).length
      = 12 + (toLocaleDateString t.date).length
        + (OptimizedResponseFormatter.txnMerchant t).length
        + (OptimizedResponseFormatter.txnSign t).length
        + (jsNum (jsAbs t.amount)).length
        + (OptimizedResponseFormatter.txnCategory t).length := by
  unfold OptimizedResponseFormatter.txnLineLight
  simp only [String.length_append]
  have e1 : ("• " : String).length = 2 := rfl
  have e2 : (" - " : String).length = 3 := rfl
  have e3 : ("\n  " : String).length = 3 := rfl
  have e4 : ("$" : String).length = 1 := rfl
  have e5 : (" • " : String).length = 3 := rfl
  omega

/-- Exact length of a standard transaction block. -/
theorem txnLineStd_len (t : Txn) :
    (OptimizedResponseFormatter.txnLineStd t).length
      = 46 + (toLocaleDateString t.date).length
        + (OptimizedResponseFormatter.txnMerchant t).length
        + (OptimizedResponseFormatter.txnSign t).length
        + (jsNum (jsAbs t.amount)).length
        + (OptimizedResponseFormatter.txnCategory t).length
        + (jsStr (t.account.bind (fun a => a.displayName))).length
        + (OptimizedResponseFormatter.txnMask t).length := by
  unfold OptimizedResponseFormatter.txnLineStd
  simp only [String.length_append]
  have e1 : ("• " : String).length = 2 := rfl
  have e2 : (" - **" : String).length = 5 := rfl
  have e3 : ("**\n" : String).length = 3 := rfl
  have e4 : ("  Amount: " : String).length = 10 := rfl
  have e5 : ("$" : String).length = 1 := rfl
  have e6 : ("\n" : String).length = 1 := rfl
  have e7 : ("  Category: " : String).length = 12 := rfl
  have e8 : ("  Account: " : String).length = 11 := rfl
  omega

/-- A light transaction line is at least nineteen characters beyond its
amount. -/
theorem txnLineLight_len_ge (t : Txn) :
    19 + (jsNum (jsAbs t.amount)).length
      ≤ (OptimizedResponseFormatter.txnLineLight t).length := by
  rw [txnLineLight_len]
  have h1 := dateLocale_len_ge t.date
  have h2 : 1 ≤ (OptimizedResponseFormatter.txnMerchant t).length := by
    unfold OptimizedResponseFormatter.txnMerchant
    exact jsOrStr_len_pos _ _ (by decide)
  have h3 : 1 ≤ (OptimizedResponseFormatter.txnCategory t).length := by
    unfold OptimizedResponseFormatter.txnCategory
    exact jsOrStr_len_pos _ _ (by decide)
  omega

/-- A standard transaction block dominates the light line. -/
theorem txnLineStd_len_ge (t : Txn) :
    (OptimizedResponseFormatter.txnLineLight t).length
      ≤ (OptimizedResponseFormatter.txnLineStd t).length := by
  rw [txnLineLight_len, txnLineStd_len]
  omega

/-- A light account line is at least six characters. -/
theorem accLineLight_len_ge (a : Account) :
    6 ≤ (OptimizedResponseFormatter.accLineLight a).length := by
  unfold OptimizedResponseFormatter.accLineLight
  simp only [String.length_append]
  have e1 : ("• " : String).length = 2 := rfl
  have e2 : (": $" : String).length = 3 := rfl
  have h := tls_len_pos (OptimizedResponseFormatter.accBalance a)
  omega

/-- A standard account block dominates the light line. -/
theorem accLineStd_len_ge (a : Account) :
    (OptimizedResponseFormatter.accLineLight a).length
      ≤ (OptimizedResponseFormatter.accLineStd a).length := by
  unfold OptimizedResponseFormatter.accLineLight OptimizedResponseFormatter.accLineStd
  simp only [String.length_append]
  have e1 : ("• " : String).length = 2 := rfl
  have e2 : (": $" : String).length = 3 := rfl
  have e3 : ("• **" : String).length = 4 := rfl
  have e4 : ("**\n" : String).length = 3 := rfl
  have e5 : ("  Type: " : String).length = 8 := rfl
  have e6 : ("\n" : String).length = 1 := rfl
  have e7 : ("  Balance: $" : String).length = 12 := rfl
  have e8 : ("  Institution: " : String).length = 15 := rfl
  have e9 : ("  Updated: " : String).length = 11 := rfl
  have hh : (if a.isHidden then (" (hidden)" : String) else "").length ≤ 9 := by
    split <;> decide
  omega

/-- The ultra-light transaction format never exceeds the light format on a
record set of at least two records. -/
theorem txn_ultra_le_light (l : List Txn) (oq : Option String) (h2 : 2 ≤ l.length) :
    (OptimizedResponseFormatter.formatTransactions l .ultraLight oq).length
      ≤ (OptimizedResponseFormatter.formatTransactions l .light oq).length := by
  cases l with
  | nil => simp at h2
  | cons t ts =>
    have hne : (t :: ts) ≠ ([] : List Txn) := by simp
    have hu : OptimizedResponseFormatter.formatTransactions (t :: ts) .ultraLight oq
        = OptimizedResponseFormatter.queryHeader oq ++ "💳 "
          ++ natRepr (t :: ts).length ++ " transactions, Volume: $"
          ++ jsNum (OptimizedResponseFormatter.txnVolume (t :: ts)) := rfl
    have hl : OptimizedResponseFormatter.formatTransactions (t :: ts) .light oq
        = OptimizedResponseFormatter.queryHeader oq
          ++ joinSep "\n" ((t :: ts).map OptimizedResponseFormatter.txnLineLight) := rfl
    rw [hu, hl]
    simp only [String.length_append, joinSep_length, List.length_map, List.map_map,
      Function.comp_def]
    rw [show ("💳 " : String).length = 2 from rfl,
      show (" transactions, Volume: $" : String).length = 24 from rfl,
      show ("\n" : String).length = 1 from rfl]
    have hN : (natRepr (t :: ts).length).length ≤ (t :: ts).length := by
      rw [natRepr_length]
      exact natDigits_len_le_self _ (by simp)
    have hT := jsNum_txnVolume_le (t :: ts) hne
    have hconst : ((t :: ts).map (fun _ => (19 : Nat))).sum = 19 * (t :: ts).length := by
      simp [Nat.mul_comm]
      ring
    have hsplit := @List.sum_map_add _ _ _ (t :: ts) (fun _ => (19 : Nat))
        (fun x => (jsNum (jsAbs x.amount)).length)
    rw [hconst] at hsplit
    have hpt : ∀ x ∈ (t :: ts),
        (fun x => 19 + (jsNum (jsAbs x.amount)).length) x
          ≤ (fun x => (OptimizedResponseFormatter.txnLineLight x).length) x :=
      fun x _ => txnLineLight_len_ge x
    have hsum := List.sum_le_sum hpt
    rw [hsplit] at hsum
    omega

/-- The light transaction format never exceeds the standard format. -/
theorem txn_light_le_std (l : List Txn) (oq : Option String) :
    (OptimizedResponseFormatter.formatTransactions l .light oq).length
      ≤ (OptimizedResponseFormatter.formatTransactions l .standard oq).length := by
  cases l with
  | nil => exact Nat.le_refl _
  | cons t ts =>
    have hl : OptimizedResponseFormatter.formatTransactions (t :: ts) .light oq
        = OptimizedResponseFormatter.queryHeader oq
          ++ joinSep "\n" ((t :: ts).map OptimizedResponseFormatter.txnLineLight) := rfl
    have hs : OptimizedResponseFormatter.formatTransactions (t :: ts) .standard oq
        = OptimizedResponseFormatter.queryHeader oq
          ++ "💳 **Transaction Summary** (" ++ natRepr (t :: ts).length
          ++ " transactions)\n\n"
          ++ joinSep "\n\n" ((t :: ts).map OptimizedResponseFormatter.txnLineStd)
          ++ "\n\n**Total Transaction Volume: $"
          ++ jsNum (OptimizedResponseFormatter.txnVolume (t :: ts)) ++ "**" := rfl
    rw [hl, hs]
    simp only [String.length_append, joinSep_length, List.length_map, List.map_map,
      Function.comp_def]
    rw [show ("\n" : String).length = 1 from rfl,
      show ("\n\n" : String).length = 2 from rfl]
    have hpt : ∀ x ∈ (t :: ts),
        (fun x => (OptimizedResponseFormatter.txnLineLight x).length) x
          ≤ (fun x => (OptimizedResponseFormatter.txnLineStd x).length) x :=
      fun x _ => txnLineStd_len_ge x
    have hsum := List.sum_le_sum hpt
    omega

/-- The ultra-light account format never exceeds the light format on a
record set of at least two records. -/
theorem acc_ultra_le_light (l : List Account) (h2 : 2 ≤ l.length) :
    (OptimizedResponseFormatter.formatAccounts l .ultraLight).length
      ≤ (OptimizedResponseFormatter.formatAccounts l .light).length := by
  have hu : OptimizedResponseFormatter.formatAccounts l .ultraLight
      = "💰 " ++ natRepr l.length ++ " accounts, Total: $"
        ++ toLocaleString (OptimizedResponseFormatter.accTotal l) := rfl
  have hl : OptimizedResponseFormatter.formatAccounts l .light
      = joinSep "\n" (l.map OptimizedResponseFormatter.accLineLight)
        ++ "\n\nTotal: $" ++ toLocaleString (OptimizedResponseFormatter.accTotal l) := rfl
  rw [hu, hl]
  simp only [String.length_append, joinSep_length, List.length_map, List.map_map,
    Function.comp_def]
  rw [show ("💰 " : String).length = 2 from rfl,
    show (" accounts, Total: $" : String).length = 19 from rfl,
    show ("\n\nTotal: $" : String).length = 10 from rfl,
    show ("\n" : String).length = 1 from rfl]
  have hN : (natRepr l.length).length ≤ l.length := by
    rw [natRepr_length]
    exact natDigits_len_le_self _ (by omega)
  have hS : 6 * l.length
      ≤ (l.map (fun a => (OptimizedResponseFormatter.accLineLight a).length)).sum :=
    sum_map_const_le _ _ _ (fun a _ => accLineLight_len_ge a)
  omega

/-- The light account format never exceeds the standard format. -/
theorem acc_light_le_std (l : List Account) :
    (OptimizedResponseFormatter.formatAccounts l .light).length
      ≤ (OptimizedResponseFormatter.formatAccounts l .standard).length := by
  have hl : OptimizedResponseFormatter.formatAccounts l .light
      = joinSep "\n" (l.map OptimizedResponseFormatter.accLineLight)
        ++ "\n\nTotal: $" ++ toLocaleString (OptimizedResponseFormatter.accTotal l) := rfl
  have hs : OptimizedResponseFormatter.formatAccounts l .standard
      = joinSep "\n\n" (l.map OptimizedResponseFormatter.accLineStd)
        ++ "\n\n**Total Balance: $"
        ++ toLocaleString (OptimizedResponseFormatter.accTotal l) ++ "**" := rfl
  rw [hl, hs]
  simp only [String.length_append, joinSep_length, List.length_map, List.map_map,
    Function.comp_def]
  rw [show ("\n\nTotal: $" : String).length = 10 from rfl,
    show ("\n\n**Total Balance: $" : String).length = 20 from rfl,
    show ("**" : String).length = 2 from rfl,
    show ("\n" : String).length = 1 from rfl,
    show ("\n\n" : String).length = 2 from rfl]
  have hpt : ∀ a ∈ l,
      (fun a => (OptimizedResponseFormatter.accLineLight a).length) a
        ≤ (fun a => (OptimizedResponseFormatter.accLineStd a).length) a :=
    fun a _ => accLineStd_len_ge a
  have hsum := List.sum_le_sum hpt
  omega


attribute [local semireducible] Rat.mul Rat.add Rat.sub Rat.inv Rat.ofScientific

/-! ## The claims -/

/-- C1 (amended): when the quantity regex matches N with 1 <= N <= 100 the
limit is N; when the matched N exceeds 100 the match is discarded and the
default assignment applies, namely 100 when the query contains the
substring all and 25 otherwise (not unconditionally 25 as claimed); the
same default applies when no quantity matches; the empty query gets limit
25 and the all-transactions query gets limit 100. -/
theorem C1_limit_spec (q : String) (t : Today) (n : Nat) :
    (findQuantity (lowerData q) = some n → 1 ≤ n → n ≤ 100 →
      (parseNaturalLanguageQuery q t).limit = some n)
    ∧ (findQuantity (lowerData q) = some n → 100 < n →
      (parseNaturalLanguageQuery q t).limit =
        some (if containsL (lowerData q) "all".data then 100 else 25))
    ∧ (findQuantity (lowerData q) = none →
      (parseNaturalLanguageQuery q t).limit =
        some (if containsL (lowerData q) "all".data then 100 else 25))
    ∧ (parseNaturalLanguageQuery "" t).limit = some 25
    ∧ (parseNaturalLanguageQuery "all transactions" t).limit = some 100 := by
  refine ⟨?_, ?_, ?_, rfl, rfl⟩
  · intro h h1 h100
    rw [parse_limit, h]
    have hc : n ≠ 0 ∧ n ≤ 100 := ⟨by omega, h100⟩
    simp [hc]
  · intro h h100
    rw [parse_limit, h]
    have hc : ¬ (n ≠ 0 ∧ n ≤ 100) := by omega
    simp [hc]
  · intro h
    rw [parse_limit, h]

/-- C1 witness: the limit-assignment specification applied at a concrete
query with a matched quantity of 7. -/
theorem C1_limit_spec_witness :
    (parseNaturalLanguageQuery "last 7 transactions" refToday).limit = some 7 :=
  (C1_limit_spec "last 7 transactions" refToday 7).1 (by decide) (by decide) (by decide)

/-- C1 counterexample: the query of the last 999 of all transactions
matches the quantity 999 > 100, and the claim requires limit 25, but the
code keeps the all-dependent default 100. -/
theorem C1_limit_cex :
    findQuantity (lowerData "last 999 of all transactions") = some 999
    ∧ (parseNaturalLanguageQuery "last 999 of all transactions" refToday).limit
        = some 100
    ∧ (parseNaturalLanguageQuery "last 999 of all transactions" refToday).limit
        ≠ some 25 := by
  refine ⟨by decide, rfl, by decide⟩

/-- C2 (amended): merchant extraction tries the named-brand, from/at,
charges-suffix and spent-at patterns in priority order, and the first
trimmed candidate that is not a stop word, not purely numeric and longer
than one character becomes the search term; the Amazon query resolves to
amazon through the first-priority brand pattern, and a query whose only
candidates are stop words yields no merchant. -/
theorem C2_merchant_spec (q : String) (t : Today) :
    (parseNaturalLanguageQuery q t).search
      = (specMerchantAmended (lowerData q)).map (fun m => String.mk m)
    ∧ (parseNaturalLanguageQuery "Amazon charges from Walmart at Target" t).search
        = some "amazon"
    ∧ (parseNaturalLanguageQuery "charges this month" t).search = none := by
  refine ⟨?_, rfl, rfl⟩
  rw [parse_search]
  unfold merchantFrom specMerchantAmended merchantCandidates
  rw [firstAccepted_eq]

/-- C2 counterexample: in the query at x-space-space-b the from/at pattern
captures x space, trimmed to the single letter x, which is neither a stop
word nor numeric, so the claim as stated requires the merchant x; the code
rejects one-letter candidates and leaves the merchant absent. -/
theorem C2_merchant_cex :
    specMerchantClaim (lowerData "at x  b") = some "x".data
    ∧ (parseNaturalLanguageQuery "at x  b" refToday).search = none := by
  refine ⟨by decide, rfl⟩

/-- C3: the amount rules are evaluated in the fixed order over, under,
exactly, each overwriting any earlier range so that the last matching rule
survives; an over amount with thousands separators and decimals parses
exactly, the currency sign is optional, and an exactly amount produces the
one-percent tolerance band. -/
theorem C3_amount_spec (q : String) (t : Today) :
    ((parseNaturalLanguageQuery q t).absAmountRange =
      match findExact (lowerData q) with
      | some x => some (some (x * (99 / 100)), some (x * (101 / 100)))
      | none =>
        match findUnder (lowerData q) with
        | some x => some (none, some x)
        | none =>
          match findOver (lowerData q) with
          | some x => some (some x, none)
          | none => none)
    ∧ (parseNaturalLanguageQuery "transactions over $1,234.56" t).absAmountRange
        = some (some (123456 / 100 : ℚ), none)
    ∧ (parseNaturalLanguageQuery "transactions exactly $50" t).absAmountRange
        = some (some (99 / 2 : ℚ), some (101 / 2 : ℚ))
    ∧ (parseNaturalLanguageQuery "transactions over 100" t).absAmountRange
        = some (some (100 : ℚ), none) := by
  refine ⟨parse_amountRange q t, ?_, ?_, ?_⟩ <;>
    rw [parse_amountRange] <;> decide

/-- C4: a query containing the phrase this month gets, for the injected
current date, a start date on the first calendar day of the current month
and an end date on the current day itself, both as ISO calendar dates; the
this-month branch has priority over the last-month and this-week branches. -/
theorem C4_thisMonth_spec (q : String) (t : Today)
    (h : containsL (lowerData q) "this month".data = true) :
    (IndexTs.parseNaturalLanguageQuery q t).startDate
        = some (isoDate t.year t.month 1)
    ∧ (IndexTs.parseNaturalLanguageQuery q t).endDate
        = some (isoDate t.year t.month t.day) := by
  constructor <;> simp [IndexTs.parseNaturalLanguageQuery, h]

/-- C4 witness: the this-month rule applied at a concrete query that also
mentions last month, under the reference clock. -/
theorem C4_thisMonth_spec_witness :
    (IndexTs.parseNaturalLanguageQuery "spending this month and last month" refToday).startDate
        = some "2024-06-01"
    ∧ (IndexTs.parseNaturalLanguageQuery "spending this month and last month" refToday).endDate
        = some "2024-06-15" := by
  have h := C4_thisMonth_spec "spending this month and last month" refToday (by decide)
  exact ⟨h.1.trans (by decide), h.2.trans (by decide)⟩

/-- C5: formatting an empty transaction record set returns the empty string
exactly, at every verbosity level and with or without a query annotation,
while formatting an empty account record set at the brief level returns the
nonempty line reporting zero accounts and a zero total. -/
theorem C5_empty_spec :
    (∀ v q, OptimizedResponseFormatter.formatTransactions [] v q = "")
    ∧ OptimizedResponseFormatter.formatAccounts [] .ultraLight
        = "💰 0 accounts, Total: $0"
    ∧ OptimizedResponseFormatter.formatAccounts [] .ultraLight ≠ "" := by
  refine ⟨fun v q => rfl, by decide, by decide⟩

/-- C7: verbosity selection returns standard exactly when the standard
per-item estimate times the item count fits the maximum; otherwise light
exactly when the light estimate fits; otherwise ultra-light
unconditionally. -/
theorem C7_verbosity_spec (dt : DataType) (itemCount maxResponseSize : Nat) :
    (calculateOptimalVerbosity dt itemCount maxResponseSize = .standard
      ↔ RESPONSE_SIZE_ESTIMATES .standard dt * itemCount ≤ maxResponseSize)
    ∧ (¬ RESPONSE_SIZE_ESTIMATES .standard dt * itemCount ≤ maxResponseSize →
      (calculateOptimalVerbosity dt itemCount maxResponseSize = .light
        ↔ RESPONSE_SIZE_ESTIMATES .light dt * itemCount ≤ maxResponseSize))
    ∧ (¬ RESPONSE_SIZE_ESTIMATES .standard dt * itemCount ≤ maxResponseSize →
      ¬ RESPONSE_SIZE_ESTIMATES .light dt * itemCount ≤ maxResponseSize →
      calculateOptimalVerbosity dt itemCount maxResponseSize = .ultraLight) := by
  by_cases h1 : RESPONSE_SIZE_ESTIMATES .standard dt * itemCount ≤ maxResponseSize <;>
    by_cases h2 : RESPONSE_SIZE_ESTIMATES .light dt * itemCount ≤ maxResponseSize <;>
      simp [calculateOptimalVerbosity, h1, h2]

/-- C7 witness: the selection rule applied at five accounts and a
ten-thousand character limit, where the standard estimate fits. -/
theorem C7_verbosity_spec_witness :
    calculateOptimalVerbosity .accounts 5 10000 = .standard :=
  (C7_verbosity_spec .accounts 5 10000).1.mpr (by decide)

/-- C9: the reference parser always yields a positive limit on every string
input (totality is by construction in this model), and the query last -5
transactions fails the numeric capture on the negative sign, keeping the
default limit 25. -/
theorem C9_totality_spec (q : String) (t : Today) :
    0 < ((parseNaturalLanguageQuery q t).limit.getD 0)
    ∧ (parseNaturalLanguageQuery "last -5 transactions" t).limit = some 25 := by
  refine ⟨?_, rfl⟩
  have h := parse_limit q t
  rcases hfq : findQuantity (lowerData q) with _ | n <;> rw [hfq] at h <;>
    rw [h] <;> dsimp only
  · simp only [Option.getD_some]
    split <;> omega
  · by_cases hc : n ≠ 0 ∧ n ≤ 100
    · rw [if_pos hc]
      simp only [Option.getD_some]
      omega
    · rw [if_neg hc]
      simp only [Option.getD_some]
      split <;> omega

/-- C6: for every record set and arguments, the aggregate the server
transaction formatter reports - the brief total and the trailing total
volume line - equals the sum over the input records of the absolute value
of the amount (a missing amount counting as zero), never the net signed
sum; for a single record it is the absolute value of that amount. -/
theorem C6_volume_spec (txns : List Txn) (args : IndexTs.OriginalArgs)
    (hne : txns ≠ []) :
    (args.verbosity.getD "summary" = "brief" →
      IndexTs.formatTransactions txns args =
        "💳 " ++ natRepr txns.length ++ " transactions, Total: $" ++
          toLocaleString (sumAbsAmounts txns))
    ∧ (args.verbosity.getD "summary" ≠ "brief" →
      ∃ p, IndexTs.formatTransactions txns args =
        p ++ (("\n\n**Total Transaction Volume: $" ++
          toLocaleString (sumAbsAmounts txns)) ++ "**"))
    ∧ (∀ t : Txn, sumAbsAmounts [t] = |t.amount.getD 0|) := by
  have hperm := processed_perm txns args
  have hlen : (IndexTs.processedTransactions txns args).length = txns.length :=
    hperm.length_eq
  have htot : IndexTs.totalAmount (IndexTs.processedTransactions txns args)
      = sumAbsAmounts txns :=
    (totalAmount_eq _).trans (sumAbsAmounts_perm _ _ hperm)
  refine ⟨?_, ?_, ?_⟩
  · intro hb
    unfold IndexTs.formatTransactions IndexTs.renderProcessed
    rw [if_pos hb, hlen, htot]
  · intro hb
    unfold IndexTs.formatTransactions IndexTs.renderProcessed
    rw [if_neg hb]
    by_cases hd : args.verbosity.getD "summary" = "detailed"
    · rw [if_pos hd, htot]
      exact append_suffix3 _ _ _ _
    · rw [if_neg hd, htot]
      exact append_suffix3 _ _ _ _
  · intro t
    simp [sumAbsAmounts]

/-- C6 witness: the brief aggregate at a concrete two-record fixture whose
amounts are 1 and -45.67, reported as the absolute sum 46.67. -/
theorem C6_volume_spec_witness :
    IndexTs.formatTransactions wTxns ⟨some "brief", none⟩ =
      "💳 2 transactions, Total: $46.67" := by
  have h := (C6_volume_spec wTxns ⟨some "brief", none⟩ (by simp [wTxns])).1 rfl
  rw [h]
  decide

/-- C10: the server transaction formatter operates on a spread copy of the
caller array: in the store model, the call leaves every pre-existing array
of the store - in particular the caller array - unchanged, even when a sort
hint makes it sort the copy, and its output is the pure formatting result
of the caller array. -/
theorem C10_frame_spec (store : List (List Txn)) (ref : Nat)
    (args : IndexTs.OriginalArgs) (j : Nat) (hj : j < store.length) :
    ((IndexTs.formatTransactionsStore store ref args).2)[j]? = store[j]?
    ∧ (IndexTs.formatTransactionsStore store ref args).1
        = IndexTs.formatTransactions (store.getD ref []) args := by
  have hset : store.length ≠ j := by omega
  constructor
  · unfold IndexTs.formatTransactionsStore
    dsimp only
    by_cases hs : jsTruthyS args.sortByAmount
    · rw [if_pos hs, List.getElem?_set_ne hset]
      exact List.getElem?_append_left hj
    · rw [if_neg hs]
      exact List.getElem?_append_left hj
  · unfold IndexTs.formatTransactionsStore IndexTs.formatTransactions
      IndexTs.processedTransactions
    dsimp only
    simp only [List.getD_eq_getElem?_getD]
    have hcopy : (store ++ [store[ref]?.getD []])[store.length]?
        = some (store[ref]?.getD []) :=
      List.getElem?_concat_length store (store[ref]?.getD [])
    by_cases hs : jsTruthyS args.sortByAmount
    · rw [if_pos hs, if_pos hs]
      congr 1
      have hlt : store.length < (store ++ [store[ref]?.getD []]).length := by
        simp
      rw [List.getElem?_set_self hlt, Option.getD_some, hcopy, Option.getD_some]
    · rw [if_neg hs, if_neg hs]
      congr 1
      rw [hcopy, Option.getD_some]

/-- C10 witness: the frame property applied at a concrete one-array store
with a descending sort hint: the caller array is unchanged. -/
theorem C10_frame_spec_witness :
    ((IndexTs.formatTransactionsStore [wTxns] 0 ⟨none, some "desc"⟩).2)[0]?
        = [wTxns][0]?
    ∧ (IndexTs.formatTransactionsStore [wTxns] 0 ⟨none, some "desc"⟩).1
        = IndexTs.formatTransactions ([wTxns].getD 0 []) ⟨none, some "desc"⟩ :=
  C10_frame_spec [wTxns] 0 ⟨none, some "desc"⟩ 0 (by decide)


/-- C8 (amended): for every transaction record set and account record set
with at least two records each, and any query annotation, the formatted
output length is monotone non-decreasing in verbosity: ultra-light at most
light, and light at most standard, for both the transaction and the
account formatter.  (The unrestricted claim fails on one-record sets.) -/
theorem C8_monotone_spec (txns : List Txn) (accts : List Account)
    (oq : Option String) (ht : 2 ≤ txns.length) (ha : 2 ≤ accts.length) :
    ((OptimizedResponseFormatter.formatTransactions txns .ultraLight oq).length
      ≤ (OptimizedResponseFormatter.formatTransactions txns .light oq).length)
    ∧ ((OptimizedResponseFormatter.formatTransactions txns .light oq).length
      ≤ (OptimizedResponseFormatter.formatTransactions txns .standard oq).length)
    ∧ ((OptimizedResponseFormatter.formatAccounts accts .ultraLight).length
      ≤ (OptimizedResponseFormatter.formatAccounts accts .light).length)
    ∧ ((OptimizedResponseFormatter.formatAccounts accts .light).length
      ≤ (OptimizedResponseFormatter.formatAccounts accts .standard).length) :=
  ⟨txn_ultra_le_light txns oq ht, txn_light_le_std txns oq,
    acc_ultra_le_light accts ha, acc_light_le_std accts⟩

/-- C8 witness: the monotone ordering applied at the concrete two-record
transaction and account fixtures. -/
theorem C8_monotone_spec_witness :
    ((OptimizedResponseFormatter.formatTransactions wTxns .ultraLight none).length
      ≤ (OptimizedResponseFormatter.formatTransactions wTxns .light none).length)
    ∧ ((OptimizedResponseFormatter.formatTransactions wTxns .light none).length
      ≤ (OptimizedResponseFormatter.formatTransactions wTxns .standard none).length)
    ∧ ((OptimizedResponseFormatter.formatAccounts wAccts .ultraLight).length
      ≤ (OptimizedResponseFormatter.formatAccounts wAccts .light).length)
    ∧ ((OptimizedResponseFormatter.formatAccounts wAccts .light).length
      ≤ (OptimizedResponseFormatter.formatAccounts wAccts .standard).length) :=
  C8_monotone_spec wTxns wAccts none (by decide) (by decide)

/-- C8 counterexample: on the one-record transaction set with a short
merchant and category, the ultra-light line is strictly longer than the
light line, refuting the unrestricted monotonicity claim. -/
theorem C8_monotone_cex :
    ¬ ((OptimizedResponseFormatter.formatTransactions [cexTxn] .ultraLight none).length
      ≤ (OptimizedResponseFormatter.formatTransactions [cexTxn] .light none).length) := by
  decide
